import Mathlib

/-!
Shallow embedding of the analytical core of `src/backend/app.py` (an ATS
resume checker): the PDF extraction coordinator, the field extractor
(name, contacts, sections, skills) and the dashboard scoring engine.

Python strings are modelled as `List Char` (`Str`).  The Python `re`
patterns of the source are modelled by a small backtracking engine (`RE`,
`reMatches`, `reFindall`, `reSubAll`) whose match enumeration follows
Python's semantics: leftmost match, alternation tried left to right,
greedy repetition longest first.  The character classes `\w`, `\s`, `\d`
are read over their ASCII range (plus the explicit Latin-1 letter ranges
the source spells out), which is the range the analysed claims depend on.
-/

set_option maxRecDepth 8000

namespace App

abbrev Str := List Char

def strL (s : String) : Str := s.data

/-- ASCII word character: the regex class `\w`. -/
def isWordChar (c : Char) : Bool := c.isAlphanum || c == '_'

/-- ASCII whitespace: the regex class `\s` and the default `str.strip()` set. -/
def pyIsSpace (c : Char) : Bool :=
  c == ' ' || c == '\t' || c == '\n' || c == '\r' || c == '\x0b' || c == '\x0c'

/-- Python `str.lower()` (ASCII letters). -/
def lowerStr (s : Str) : Str := s.map Char.toLower

/-- Python `str.strip(chars)`: drop characters of the set from both ends. -/
def stripChars (cs : Str) (s : Str) : Str :=
  ((s.dropWhile (cs.contains ·)).reverse.dropWhile (cs.contains ·)).reverse

/-- Python `str.strip()`: whitespace off both ends. -/
def stripWs (s : Str) : Str :=
  ((s.dropWhile pyIsSpace).reverse.dropWhile pyIsSpace).reverse

/-- Boolean list-prefix test. -/
def startsL : Str → Str → Bool
  | [], _ => true
  | _ :: _, [] => false
  | a :: as, b :: bs => a == b && startsL as bs

/-- Python substring test `needle in hay`. -/
def hasSub (needle : Str) : Str → Bool
  | [] => startsL needle []
  | c :: rest => startsL needle (c :: rest) || hasSub needle rest

/-- Python `str.count(sub)`: non-overlapping occurrences scanning left to right. -/
def countSubGo (needle : Str) : Nat → Str → Nat
  | 0, _ => 0
  | _, [] => 0
  | fuel + 1, c :: rest =>
    if startsL needle (c :: rest) then 1 + countSubGo needle fuel ((c :: rest).drop needle.length)
    else countSubGo needle fuel rest

def countSub (needle hay : Str) : Nat := countSubGo needle hay.length hay

/-- Line-break characters of Python `str.splitlines` (the pair `\r\n` is handled
separately in `splitlinesGo`). -/
def lineBreakC (c : Char) : Bool :=
  c == '\n' || c == '\r' || c == '\x0b' || c == '\x0c' || c == '\x1c' || c == '\x1d' ||
  c == '\x1e' || c == '\x85' || c == '\u2028' || c == '\u2029'

def splitlinesGo (cur : Str) : Str → List Str
  | [] => if cur == [] then [] else [cur]
  | '\r' :: '\n' :: rest => cur :: splitlinesGo [] rest
  | c :: rest => if lineBreakC c then cur :: splitlinesGo [] rest else splitlinesGo (cur ++ [c]) rest

/-- Python `str.splitlines()` (no trailing empty line for a trailing break). -/
def pySplitlines (s : Str) : List Str := splitlinesGo [] s

/-- Regular expressions over `Char`, covering exactly the constructs the patterns
in `app.py` use: character classes, concatenation, alternation (left priority),
greedy repetition of a character class with optional upper bound, and the
zero-width word boundary `\b`. -/
inductive RE where
  | eps
  | cls (p : Char → Bool)
  | seq (a b : RE)
  | alt (a b : RE)
  | rep (p : Char → Bool) (lo : Nat) (hi : Option Nat)
  | wordB

/-- Last character of `l`, falling back to `p`; tracks the character just before
the current position, which `\b` consults. -/
def lastChar (l : Str) (p : Option Char) : Option Char :=
  match l.getLast? with
  | some c => some c
  | none => p

/-- All ways `r` matches a prefix of `s` given preceding character `p`, as
`(consumed, new preceding character, rest)`, in Python backtracking priority
order (alternatives left first, repetition longest first); the head is the match
Python's engine reports. -/
def reMatches : RE → Option Char → Str → List (Str × Option Char × Str)
  | .eps, p, s => [([], p, s)]
  | .cls q, p, s =>
    match p, s with
    | _, [] => []
    | _, c :: rest => if q c then [([c], some c, rest)] else []
  | .seq a b, p, s =>
    (reMatches a p s).flatMap fun r =>
      (reMatches b r.2.1 r.2.2).map fun r2 => (r.1 ++ r2.1, r2.2.1, r2.2.2)
  | .alt a b, p, s => reMatches a p s ++ reMatches b p s
  | .wordB, p, s =>
    let pw := match p with | some c => isWordChar c | none => false
    let nw := match s with | c :: _ => isWordChar c | [] => false
    if pw != nw then [([], p, s)] else []
  | .rep q lo hi, p, s =>
    let run := s.takeWhile q
    let cap := match hi with | some h => min run.length h | none => run.length
    if cap < lo then []
    else (List.range (cap + 1 - lo)).map fun d =>
      let j := cap - d
      (run.take j, lastChar (run.take j) p, s.drop j)

/-- One scan of `re.finditer`: at each position take the engine's first match,
emit it and continue after it; with no match advance one character. -/
def reScanGo (r : RE) : Nat → Option Char → Str → List Str
  | 0, _, _ => []
  | fuel + 1, p, s =>
    match (reMatches r p s).head? with
    | some m =>
      if m.1 == [] then
        m.1 :: (match s with
          | [] => []
          | c :: cs => reScanGo r fuel (some c) cs)
      else m.1 :: reScanGo r fuel m.2.1 m.2.2
    | none =>
      match s with
      | [] => []
      | c :: cs => reScanGo r fuel (some c) cs

/-- Python `re.findall` / full matches of `re.finditer` (the source only uses
whole-match texts and match counts). -/
def reFindall (r : RE) (s : Str) : List Str := reScanGo r (s.length + 1) none s

def reSubGo (r : RE) (repl : Str) : Nat → Option Char → Str → Str
  | 0, _, s => s
  | fuel + 1, p, s =>
    match (reMatches r p s).head? with
    | some m =>
      if m.1 == [] then
        repl ++ (match s with
          | [] => []
          | c :: cs => c :: reSubGo r repl fuel (some c) cs)
      else repl ++ reSubGo r repl fuel m.2.1 m.2.2
    | none =>
      match s with
      | [] => []
      | c :: cs => c :: reSubGo r repl fuel (some c) cs

/-- Python `re.sub(pattern, repl, s)`. -/
def reSubAll (r : RE) (repl : Str) (s : Str) : Str := reSubGo r repl (s.length + 1) none s

def lit (c : Char) : RE := .cls (· == c)

/-- Case-insensitive literal (for the patterns compiled with `re.IGNORECASE`). -/
def litCI (c : Char) : RE := .cls (fun x => x.toLower == c)

def optR (r : RE) : RE := .alt r .eps

def catR : List RE → RE
  | [] => .eps
  | [r] => r
  | r :: rest => .seq r (catR rest)

def strR (s : String) : RE := catR (s.data.map lit)

def strRCI (s : String) : RE := catR (s.data.map litCI)

def digitC (c : Char) : Bool := c.isDigit

def alphaC (c : Char) : Bool := c.isAlpha

/-- Class `[A-Z0-9._%+-]` under `IGNORECASE`. -/
def emailLocalC (c : Char) : Bool :=
  c.isAlphanum || c == '.' || c == '_' || c == '%' || c == '+' || c == '-'

/-- Class `[A-Z0-9.-]` under `IGNORECASE`. -/
def emailDomainC (c : Char) : Bool := c.isAlphanum || c == '.' || c == '-'

/-- Class `[\s\-]`. -/
def spaceDashC (c : Char) : Bool := pyIsSpace c || c == '-'

/-- Class `[A-Za-z0-9_/\-%.]`. -/
def urlPathC (c : Char) : Bool :=
  c.isAlphanum || c == '_' || c == '/' || c == '-' || c == '%' || c == '.'

/-- Class `[A-Za-z0-9_\-%.]`. -/
def ghPathC (c : Char) : Bool := c.isAlphanum || c == '_' || c == '-' || c == '%' || c == '.'

/-- Class `[A-Za-z0-9.-]`. -/
def hostC (c : Char) : Bool := c.isAlphanum || c == '.' || c == '-'

/-- Embedding of `EMAIL_RE = \b[A-Z0-9._%+-]+@[A-Z0-9.-]+\.[A-Z]{2,}\b` (IGNORECASE). -/
def emailRE : RE :=
  catR [.wordB, .rep emailLocalC 1 none, lit '@', .rep emailDomainC 1 none,
        lit '.', .rep alphaC 2 none, .wordB]

/-- Embedding of `PHONE_RE =
`(?:(?:\+|00)\d{1,3}[\s\-]?)?(?:\(?\d{2,4}\)?[\s\-]?)?\d{3,4}[\s\-]?\d{3,4}\b`. -/
def phoneRE : RE :=
  catR [optR (catR [.alt (lit '+') (strR "00"), .rep digitC 1 (some 3), optR (.cls spaceDashC)]),
        optR (catR [optR (lit '('), .rep digitC 2 (some 4), optR (lit ')'), optR (.cls spaceDashC)]),
        .rep digitC 3 (some 4), optR (.cls spaceDashC), .rep digitC 3 (some 4), .wordB]

/-- `(https?://)` under `IGNORECASE`. -/
def schemeCI : RE := catR [strRCI "http", optR (litCI 's'), strR "://"]

/-- Embedding of `LINKEDIN_RE = (https?://)?(www\.)?linkedin\.com/[A-Za-z0-9_/\-%.]+`
(IGNORECASE). -/
def linkedinRE : RE :=
  catR [optR schemeCI, optR (strRCI "www."), strRCI "linkedin.com/", .rep urlPathC 1 none]

/-- Embedding of `GITHUB_RE = (https?://)?(www\.)?github\.com/[A-Za-z0-9_\-%.]+`
(IGNORECASE). -/
def githubRE : RE :=
  catR [optR schemeCI, optR (strRCI "www."), strRCI "github.com/", .rep ghPathC 1 none]

/-- `(?:https?://)` case-sensitive (the portfolio pattern has no flag). -/
def schemeCS : RE := catR [strR "http", optR (lit 's'), strR "://"]

/-- Embedding of
`PORTFOLIO_RE = \b(?:https?://)?[A-Za-z0-9.-]+\.[A-Za-z]{2,}(?:/[A-Za-z0-9_/\-%.]+)?\b`. -/
def portfolioRE : RE :=
  catR [.wordB, optR schemeCS, .rep hostC 1 none, lit '.', .rep alphaC 2 none,
        optR (.seq (lit '/') (.rep urlPathC 1 none)), .wordB]

/-- Embedding of `normalize(s) = re.sub(r"\s+", " ", s.strip())`. -/
def normalize (s : Str) : Str := reSubAll (.rep pyIsSpace 1 none) [' '] (stripWs s)

/-- Embedding of `lines_from_text`: stripped non-blank lines. -/
def lines_from_text (text : Str) : List Str :=
  (pySplitlines text).filterMap fun l =>
    let t := stripWs l
    if t == [] then none else some t

/-- Lexicographic code-point comparison: Python string ordering used by `sorted`. -/
def lexLe : Str → Str → Bool
  | [], _ => true
  | _ :: _, [] => false
  | a :: as, b :: bs => if a < b then true else if b < a then false else lexLe as bs

/-- Duplicate removal keeping first occurrences (the contents of Python `set(xs)`;
the order is then fixed by `sorted`). -/
def dedupFirst : List Str → List Str → List Str
  | _, [] => []
  | seen, x :: rest =>
    if seen.contains x then dedupFirst seen rest else x :: dedupFirst (x :: seen) rest

/-- Python `sorted(set(xs))` for strings. -/
def pySortedSet (xs : List Str) : List Str :=
  List.insertionSort (fun a b => lexLe a b = true) (dedupFirst [] xs)

structure Contacts where
  emails : List Str
  phones : List Str
  linkedin : List Str
  github : List Str
  portfolio : List Str

/-- Digits of `p`: the embedding of `re.sub(r"\D", "", p)`. -/
def digitsOf (p : Str) : Str := p.filter (·.isDigit)

/-- Embedding of `find_contacts` (app.py lines 156-177). -/
def find_contacts (text : Str) : Contacts :=
  let emails := pySortedSet (reFindall emailRE text)
  let phones0 := pySortedSet ((reFindall phoneRE text).map stripWs)
  let phones := (phones0.filter (fun p => 9 ≤ (digitsOf p).length)).take 3
  let linkedin := (pySortedSet (reFindall linkedinRE text)).take 2
  let github := (pySortedSet (reFindall githubRE text)).take 2
  let other := (reFindall portfolioRE text).filter fun u =>
    let lu := lowerStr u
    !(hasSub (strL "linkedin.com") lu) && !(hasSub (strL "github.com") lu) &&
      !(u.contains '@') && !(u.length < 10)
  let portfolio := (pySortedSet other).take 2
  { emails := emails, phones := phones, linkedin := linkedin, github := github,
    portfolio := portfolio }

/-- The `guess_name` blacklist. -/
def gnBlacklist : List Str := [strL "curriculum vitae", strL "resume", strL "cv"]

/-- The class `[A-Za-zÀ-ÖØ-öø-ÿ]` of the name-word pattern in `guess_name`. -/
def nameLetterC (c : Char) : Bool :=
  c.isAlpha || (decide (0xC0 ≤ c.toNat) && decide (c.toNat ≤ 0xD6)) ||
    (decide (0xD8 ≤ c.toNat) && decide (c.toNat ≤ 0xF6)) ||
    (decide (0xF8 ≤ c.toNat) && decide (c.toNat ≤ 0xFF))

/-- The lowercased stripped form `l.lower().strip(":-•* ").strip()` that the
blacklist of `guess_name` is tested against. -/
def gnLow (l : Str) : Str := stripWs (stripChars (strL ":-•* ") (lowerStr l))

/-- Count of digit characters: `sum(ch.isdigit() for ch in l)`. -/
def digitCount (l : Str) : Nat := (l.filter (·.isDigit)).length

/-- Word list of a candidate name line: `re.findall(r"[A-Za-zÀ-ÖØ-öø-ÿ]+", l)`. -/
def gnWords (l : Str) : List Str := reFindall (.rep nameLetterC 1 none) l

/-- The loop of `guess_name` over (at most) the first 16 lines. -/
def gnGo : List Str → Option Str
  | [] => none
  | l :: rest =>
    if gnBlacklist.any (fun b => hasSub b (gnLow l)) then gnGo rest
    else if l.contains '@' then gnGo rest
    else if 0 < digitCount l then gnGo rest
    else if 50 < l.length then gnGo rest
    else if 2 ≤ (gnWords l).length ∧ (gnWords l).length ≤ 4 then some (normalize l)
    else gnGo rest

/-- Embedding of `guess_name` (app.py lines 138-153). -/
def guess_name (lines : List Str) : Option Str := gnGo (lines.take 16)

/-- Embedding of the `SECTION_ALIASES` table. -/
def SECTION_ALIASES : List (String × List String) :=
  [("summary", ["summary", "profile", "about", "about me", "professional summary",
                "career summary", "objective"]),
   ("skills", ["skills", "technical skills", "core skills", "key skills", "competencies",
               "tools", "technologies"]),
   ("experience", ["experience", "work experience", "employment", "professional experience",
                   "work history", "internship"]),
   ("education", ["education", "academics", "academic background", "qualifications"]),
   ("projects", ["projects", "personal projects", "selected projects"]),
   ("certifications", ["certifications", "certificates", "licenses", "training"]),
   ("languages", ["languages", "language"])]

/-- The dict `alias_to_key` built from `SECTION_ALIASES` (all aliases are already
lowercase, so `a.lower()` is the identity on them; the table has no duplicate
alias, so first-wins lookup equals the dict). -/
def alias_to_key (l : Str) : Option String :=
  List.lookup l
    (SECTION_ALIASES.flatMap fun kv => kv.2.map fun a => (lowerStr (strL a), kv.1))

/-- Embedding of `heading_key` inside `sectionize`. -/
def heading_key (line : Str) : Option String :=
  let l := stripWs (stripChars (strL ":-•* ") (lowerStr line))
  if 44 < l.length then none else alias_to_key l

/-- The eight buckets `sectionize` creates: the seven canonical sections plus the
`_unknown` bucket for lines before the first heading. -/
structure Sections where
  summary : List Str := []
  skills : List Str := []
  experience : List Str := []
  education : List Str := []
  projects : List Str := []
  certifications : List Str := []
  languages : List Str := []
  unknownSec : List Str := []

/-- Dictionary access `sections[k]` on the fixed eight keys. -/
def Sections.get (s : Sections) (k : String) : List Str :=
  if k == "summary" then s.summary
  else if k == "skills" then s.skills
  else if k == "experience" then s.experience
  else if k == "education" then s.education
  else if k == "projects" then s.projects
  else if k == "certifications" then s.certifications
  else if k == "languages" then s.languages
  else if k == "_unknown" then s.unknownSec
  else []

/-- `sections.setdefault(current, []).append(line)`; `current` is always one of the
eight keys created at initialisation, so `setdefault` never creates a key (the
catch-all branch is unreachable from `sectionize`). -/
def Sections.push (s : Sections) (k : String) (line : Str) : Sections :=
  if k == "summary" then { s with summary := s.summary ++ [line] }
  else if k == "skills" then { s with skills := s.skills ++ [line] }
  else if k == "experience" then { s with experience := s.experience ++ [line] }
  else if k == "education" then { s with education := s.education ++ [line] }
  else if k == "projects" then { s with projects := s.projects ++ [line] }
  else if k == "certifications" then { s with certifications := s.certifications ++ [line] }
  else if k == "languages" then { s with languages := s.languages ++ [line] }
  else if k == "_unknown" then { s with unknownSec := s.unknownSec ++ [line] }
  else s

/-- The line walk of `sectionize`: a heading switches the current section, any
other line is appended to the current section. -/
def sectionizeGo : List Str → String → Sections → Sections
  | [], _, acc => acc
  | line :: rest, cur, acc =>
    match heading_key line with
    | some key => sectionizeGo rest key acc
    | none => sectionizeGo rest cur (acc.push cur line)

/-- Embedding of `sectionize` (app.py lines 180-202). -/
def sectionize (lines : List Str) : Sections := sectionizeGo lines "_unknown" {}

/-- Delimiter class of `re.split(r"[•·•\|\n,;/]+", t)` (`•` repeats `•`). -/
def skillDelimC (c : Char) : Bool :=
  c == '•' || c == '·' || c == '|' || c == '\n' || c == ',' || c == ';' || c == '/'

/-- Body class `[A-Za-z\s/&-]` of the category-label pattern. -/
def catBodyC (c : Char) : Bool := c.isAlpha || pyIsSpace c || c == '/' || c == '&' || c == '-'

/-- Embedding of the category-label pattern `\b[A-Za-z][A-Za-z\s/&-]{2,30}:\s*`
removed by `split_skills`. -/
def catLabelRE : RE :=
  catR [.wordB, .cls alphaC, .rep catBodyC 2 (some 30), lit ':', .rep pyIsSpace 0 none]

mutual

/-- Piece accumulation of Python `re.split` on a character-class-plus pattern. -/
def resplitGo (p : Char → Bool) (cur : Str) : Str → List Str
  | [] => [cur]
  | c :: rest => if p c then cur :: resplitSkip p rest else resplitGo p (cur ++ [c]) rest

/-- Delimiter-run skipping of Python `re.split` on a character-class-plus pattern. -/
def resplitSkip (p : Char → Bool) : Str → List Str
  | [] => [[]]
  | c :: rest => if p c then resplitSkip p rest else resplitGo p [c] rest

end

/-- Python `re.split(r"[class]+", s)`. -/
def resplitCls (p : Char → Bool) (s : Str) : List Str := resplitGo p [] s

/-- The cleaning loop of `split_skills`: normalize each token, drop empty and
over-45-character tokens. -/
def cleanTokens : List Str → List Str
  | [] => []
  | p :: rest =>
    let p' := normalize p
    if p' == [] then cleanTokens rest
    else if 45 < p'.length then cleanTokens rest
    else p' :: cleanTokens rest

/-- The case-insensitive first-occurrence dedup loop of `split_skills`. -/
def dedupLower : List Str → List Str → List Str
  | _, [] => []
  | seen, s :: rest =>
    if seen.contains (lowerStr s) then dedupLower seen rest
    else s :: dedupLower (lowerStr s :: seen) rest

/-- Token stream of `split_skills` before dedup and cap: join the skills lines,
strip category labels, split on delimiters, clean. -/
def skillTokens (skills_lines : List Str) : List Str :=
  cleanTokens (resplitCls skillDelimC
    (reSubAll catLabelRE [] (List.intercalate (strL " ") skills_lines)))

/-- Embedding of `split_skills` (app.py lines 205-225). -/
def split_skills (skills_lines : List Str) : List Str :=
  (dedupLower [] (skillTokens skills_lines)).take 70

structure SectionCounts where
  summary : Nat := 0
  skills : Nat := 0
  experience : Nat := 0
  education : Nat := 0
  projects : Nat := 0
  certifications : Nat := 0
  languages : Nat := 0

structure Structured where
  name : Option Str
  contacts : Contacts
  about : Str
  skills : List Str
  experience : Str
  projects : Str
  education : Str
  certifications : Str
  languages : Str
  raw_preview : Str
  sections_detected : SectionCounts

/-- Per-section block `"\n".join(sections.get(key, [])[:limit]).strip()`. -/
def sectionBlock (sections : Sections) (key : String) (limit : Nat) : Str :=
  stripWs (List.intercalate (strL "\n") ((sections.get key).take limit))

/-- Embedding of `extract_structured` (app.py lines 228-255);
`sections_detected` holds the per-section line counts without `_unknown`. -/
def extract_structured (text : Str) : Structured :=
  let lines := lines_from_text text
  let contacts := find_contacts text
  let sections := sectionize lines
  let about :=
    if sections.summary ≠ [] then
      normalize ((List.intercalate (strL " ") sections.summary).take 1400)
    else []
  { name := guess_name lines, contacts := contacts, about := about,
    skills := split_skills sections.skills,
    experience := sectionBlock sections "experience" 120,
    projects := sectionBlock sections "projects" 120,
    education := sectionBlock sections "education" 90,
    certifications := sectionBlock sections "certifications" 70,
    languages := sectionBlock sections "languages" 30,
    raw_preview := List.intercalate (strL "\n") (lines.take 90),
    sections_detected :=
      { summary := sections.summary.length, skills := sections.skills.length,
        experience := sections.experience.length, education := sections.education.length,
        projects := sections.projects.length,
        certifications := sections.certifications.length,
        languages := sections.languages.length } }

/-- Per-strategy extraction metadata: the dicts the PDF extractors build. -/
structure StratMeta where
  method : String
  pages : Nat
  per_page_characters : List Nat

/-- The coordinator metadata dict `{"primary": ..., "fallback": ...}`; `none`
models an absent key or the empty dict `{}`. -/
structure CoordMeta where
  primary : Option StratMeta
  fallback : Option StratMeta

/-- Embedding of `extract_text_from_pdf` (app.py lines 80-92).  The two concrete
extraction strategies wrap external PDF decoders (outside the analytical core,
per the spec an opaque capability), so they are parameters; the coordination
logic is the source's. -/
def extract_text_from_pdf {α : Type} (strat1 strat2 : α → Str × StratMeta)
    (pdf_bytes : α) : Str × CoordMeta :=
  let r1 := strat1 pdf_bytes
  if r1.1.length < 200 then
    let r2 := strat2 pdf_bytes
    if r1.1.length < r2.1.length then (r2.1, { primary := some r2.2, fallback := some r1.2 })
    else (r1.1, { primary := some r1.2, fallback := some r2.2 })
  else (r1.1, { primary := some r1.2, fallback := none })

structure CheckItem where
  key : String
  label : String
  score : ℤ
  status : String
  note : String

instance : Inhabited CheckItem :=
  ⟨{ key := "", label := "", score := 0, status := "", note := "" }⟩

/-- Scalar values of the `signals` dict. -/
inductive SigVal where
  | i (n : ℤ)
  | q (x : ℚ)
  | b (v : Bool)
  | s (v : String)
  | nul
  | m (v : Option StratMeta)

structure DashboardScore where
  score : ℤ
  issues : ℤ
  ats_parse_rate : ℤ
  checks : List CheckItem
  ats_friendly : Bool
  grade : String
  suggestions : List String
  signals : List (String × SigVal)

/-- Embedding of `clamp(v, lo, hi) = max(lo, min(hi, v))`. -/
def clampQ (v lo hi : ℚ) : ℚ := max lo (min hi v)

/-- `int(clamp(v, 0, 100))` on the integer-valued scores. -/
def clampZ (v lo hi : ℤ) : ℤ := max lo (min hi v)

/-- Python `round` on an exact rational: nearest integer, ties to even. -/
def pyRound (q : ℚ) : ℤ :=
  if q - ⌊q⌋ < 1/2 then ⌊q⌋
  else if 1/2 < q - ⌊q⌋ then ⌊q⌋ + 1
  else if ⌊q⌋ % 2 = 0 then ⌊q⌋ else ⌊q⌋ + 1

/-- Python `round(x, 1)` on an exact rational. -/
def round1 (x : ℚ) : ℚ := (pyRound (10 * x) : ℚ) / 10

/-- `words = re.findall(r"\b\w+\b", text)`. -/
def words_of (text : Str) : List Str :=
  reFindall (catR [.wordB, .rep isWordChar 1 none, .wordB]) text

/-- `per_page = (meta.get("primary", {}) if isinstance(meta, dict) else {})
.get("per_page_characters", []) or []`. -/
def per_page_of (meta : CoordMeta) : List Nat :=
  match meta.primary with
  | some m => m.per_page_characters
  | none => []

/-- `pages = int(primary.get("pages", 1) or 1)`: an absent key and `0` both give 1. -/
def pages_of (meta : CoordMeta) : Nat :=
  match meta.primary with
  | some m => if m.pages == 0 then 1 else m.pages
  | none => 1

/-- `avg_chars`: mean per-page character count when per-page data exists, else
total characters over pages. -/
def avg_chars_of (text : Str) (meta : CoordMeta) : ℚ :=
  let pp := per_page_of meta
  if pp ≠ [] then ((pp.sum : ℚ)) / ((max 1 pp.length : ℕ) : ℚ)
  else ((text.length : ℚ)) / ((max 1 (pages_of meta) : ℕ) : ℚ)

/-- `likely_scanned = char_count < 800 or avg_chars < 250`. -/
def likely_scanned_of (text : Str) (meta : CoordMeta) : Bool :=
  decide (text.length < 800) || decide (avg_chars_of text meta < 250)

/-- `bullet_count = len(re.findall(r"[•\-•]\s", text))`. -/
def bullet_count_of (text : Str) : Nat :=
  (reFindall (.seq (.cls (fun c => c == '•' || c == '-')) (.cls pyIsSpace)) text).length

/-- Embedding of `\b(20\d{2}|19\d{2})\b` (only its match count is used). -/
def yearRE : RE :=
  catR [.wordB,
        .alt (catR [lit '2', lit '0', .rep digitC 2 (some 2)])
             (catR [lit '1', lit '9', .rep digitC 2 (some 2)]),
        .wordB]

def date_mentions_of (text : Str) : Nat := (reFindall yearRE text).length

/-- `possible_columns = text.count("    ") > 160`. -/
def possible_columns_of (text : Str) : Bool := decide (160 < countSub (strL "    ") text)

/-- Embedding of `\b\d+%|\b\d+\b`. -/
def numRE : RE :=
  .alt (catR [.wordB, .rep digitC 1 none, lit '%'])
       (catR [.wordB, .rep digitC 1 none, .wordB])

/-- `nums = len(re.findall(r"\b\d+%|\b\d+\b", text))`. -/
def nums_of (text : Str) : Nat := (reFindall numRE text).length

/-- `caps = len(re.findall(r"\b[A-Z]{4,}\b", text))`. -/
def caps_of (text : Str) : Nat :=
  (reFindall (catR [.wordB, .rep (fun c => c.isUpper) 4 none, .wordB]) text).length

/-- Characters the weird-symbol class `[^\w\s•\-•,.;:/()@+%#&]` does NOT count. -/
def weirdOkC (c : Char) : Bool :=
  isWordChar c || pyIsSpace c || c == '•' || c == '-' || c == ',' || c == '.' || c == ';' ||
  c == ':' || c == '/' || c == '(' || c == ')' || c == '@' || c == '+' || c == '%' ||
  c == '#' || c == '&'

/-- `weird = len(re.findall(r"[^\w\s•\-•,.;:/()@+%#&]", text))`. -/
def weird_of (text : Str) : Nat := (text.filter (fun c => !(weirdOkC c))).length

/-- One insertion into the word-frequency dict (Python dicts keep first-insertion
order, so a fresh key is appended at the end). -/
def bumpFreq (k : Str) : List (Str × Nat) → List (Str × Nat)
  | [] => [(k, 1)]
  | (k', n) :: rest => if k' == k then (k', n + 1) :: rest else (k', n) :: bumpFreq k rest

def freqOf (ws : List Str) : List (Str × Nat) := ws.foldl (fun acc w => bumpFreq w acc) []

/-- `low_words = [w.lower() for w in words if len(w) >= 4]`. -/
def low_words_of (text : Str) : List Str :=
  ((words_of text).filter fun w => 4 ≤ w.length).map lowerStr

/-- `top = sorted(freq.items(), key=lambda x: x[1], reverse=True)[:6]`: a stable
descending sort by count. -/
def topFreq (text : Str) : List (Str × Nat) :=
  (List.insertionSort (fun a b => b.2 ≤ a.2) (freqOf (low_words_of text))).take 6

/-- Output of one check block: the raw score variable the aggregate uses, the
amount added to `issues`, the appended suggestions, and the `CheckItem`. -/
structure CheckStep where
  score : ℤ
  issues : ℤ
  suggs : List String
  item : CheckItem

/-- Check 1, ATS parse rate (app.py lines 320-328). -/
def ats_parse_check (likely_scanned : Bool) : CheckStep :=
  if likely_scanned then
    { score := 30, issues := 1,
      suggs := ["Export your resume as a text-based PDF (not scanned). If needed, run OCR before uploading."],
      item := { key := "ats_parse", label := "ATS Parse Rate", score := 30, status := "fail",
                note := "Looks scanned or image-based." } }
  else
    { score := 92, issues := 0, suggs := [],
      item := { key := "ats_parse", label := "ATS Parse Rate", score := 92, status := "pass",
                note := "Text extraction works." } }

/-- Python `", ".join(parts)`. -/
def joinComma (parts : List String) : String := String.intercalate ", " parts

/-- Check 2, contact completeness (app.py lines 330-355).  Each source `if` is one
conditional update of `(score, issues, suggestions, note_parts)`; the source's
`if status != "pass": issues += 0` is a no-op and adds nothing. -/
def contact_check (emails phones : List Str) (has_link : Bool) : CheckStep :=
  let s0 : ℤ × ℤ × List String × List String := (100, 0, [], [])
  let s1 :=
    if emails.isEmpty then
      (s0.1 - 45, s0.2.1 + 1,
       s0.2.2.1 ++ ["Add a professional email near the top in plain text."],
       s0.2.2.2 ++ ["No email found"])
    else s0
  let s2 :=
    if phones.isEmpty then
      (s1.1 - 25, s1.2.1 + 1,
       s1.2.2.1 ++ ["Add a phone number in plain text (include country code)."],
       s1.2.2.2 ++ ["No phone found"])
    else s1
  let s3 :=
    if !has_link then
      (s2.1 - 10, s2.2.1,
       s2.2.2.1 ++ ["Add LinkedIn/GitHub/portfolio link in plain text."],
       s2.2.2.2 ++ ["No profile links found"])
    else s2
  let score := clampZ s3.1 0 100
  let status := if 85 ≤ score then "pass" else if 60 ≤ score then "warn" else "fail"
  { score := score, issues := s3.2.1, suggs := s3.2.2.1,
    item := { key := "contact", label := "Contact Details", score := score, status := status,
              note := if s3.2.2.2.isEmpty then "Looks complete." else joinComma s3.2.2.2 } }

/-- Check 3, sections (app.py lines 357-375). -/
def sections_check (sec : SectionCounts) : CheckStep :=
  let has_skills := decide (0 < sec.skills)
  let has_edu := decide (0 < sec.education)
  let has_exp_or_proj := decide (0 < sec.experience) || decide (0 < sec.projects)
  let s0 : ℤ × ℤ × List String × List String := (100, 0, [], [])
  let s1 :=
    if !has_skills then
      (s0.1 - 35, s0.2.1 + 1,
       s0.2.2.1 ++ ["Add a clear 'Skills' section with keywords (tools, languages, platforms)."],
       s0.2.2.2 ++ ["Skills"])
    else s0
  let s2 :=
    if !has_edu then
      (s1.1 - 20, s1.2.1 + 1,
       s1.2.2.1 ++ ["Add an 'Education' section with degree + dates."],
       s1.2.2.2 ++ ["Education"])
    else s1
  let s3 :=
    if !has_exp_or_proj then
      (s2.1 - 35, s2.2.1 + 1,
       s2.2.2.1 ++ ["Add 'Experience' or 'Projects' with impact bullets and tech used."],
       s2.2.2.2 ++ ["Experience/Projects"])
    else s2
  let score := clampZ s3.1 0 100
  let status := if 85 ≤ score then "pass" else if 60 ≤ score then "warn" else "fail"
  { score := score, issues := s3.2.1, suggs := s3.2.2.1,
    item := { key := "sections", label := "Sections", score := score, status := status,
              note := if s3.2.2.2.isEmpty then "All key sections detected."
                      else String.append "Missing: " (joinComma s3.2.2.2) } }

/-- Check 4, quantifying impact (app.py lines 377-390): triggered score is
`80 - 25`, otherwise the initial 80 is overwritten by 92; the stored item score
is clamped, the aggregate uses the raw variable. -/
def impact_check (nums : Nat) : CheckStep :=
  let t : ℤ × ℤ × List String × String × String :=
    if nums < 6 then
      (80 - 25, 1, ["Add measurable results: %, time saved, users, revenue, speed, KPIs."],
       "Few numbers/metrics found.", "warn")
    else (92, 0, [], "Good amount of metrics.", "pass")
  { score := t.1, issues := t.2.1, suggs := t.2.2.1,
    item := { key := "impact", label := "Quantifying Impact", score := clampZ t.1 0 100,
              status := t.2.2.2.2, note := t.2.2.2.1 } }

/-- Check 5, repetition (app.py lines 392-409): triggered when the top ≥4-letter
word frequency is at least 18. -/
def repetition_check (top : List (Str × Nat)) : CheckStep :=
  let t : ℤ × ℤ × List String × String × String :=
    match top.head? with
    | some t0 =>
      if 18 ≤ t0.2 then
        (65, 1, ["Reduce repeated words; vary action verbs and rewrite duplicated phrases."],
         String.append "High repetition of '"
           (String.append (String.mk t0.1)
             (String.append "' (" (String.append (toString t0.2) "x)."))), "warn")
      else (90, 0, [], "Looks fine.", "pass")
    | none => (90, 0, [], "Looks fine.", "pass")
  { score := t.1, issues := t.2.1, suggs := t.2.2.1,
    item := { key := "repetition", label := "Repetition", score := t.1,
              status := t.2.2.2.2, note := t.2.2.2.1 } }

/-- Check 6, format and brevity (app.py lines 411-428). -/
def brevity_check (word_count : Nat) : CheckStep :=
  let t : ℤ × ℤ × List String × String × String :=
    if word_count < 220 then
      (62, 1, ["Add more relevant bullets, projects, tools, and responsibilities."],
       "Resume is short (low keyword coverage).", "warn")
    else if 1200 < word_count then
      (60, 1, ["Aim for 1–2 pages and prioritize relevant content."],
       "Resume is long (harder to scan).", "warn")
    else (92, 0, [], "Length looks reasonable.", "pass")
  { score := t.1, issues := t.2.1, suggs := t.2.2.1,
    item := { key := "brevity", label := "Format & Brevity", score := t.1,
              status := t.2.2.2.2, note := t.2.2.2.1 } }

/-- Check 7, spelling and grammar heuristic (app.py lines 430-446); the initial
`grammar_score = 80` is overwritten in both branches. -/
def grammar_check (caps weird : Nat) : CheckStep :=
  let t : ℤ × ℤ × List String × String × String :=
    if 25 < caps ∨ 80 < weird then
      (65, 1, ["Avoid too many icons/symbols; keep headings consistent and readable."],
       "Formatting noise detected (icons/symbols/caps).", "warn")
    else (86, 0, [], "Basic check only (offline).", "pass")
  { score := t.1, issues := t.2.1, suggs := t.2.2.1,
    item := { key := "grammar", label := "Spelling & Grammar", score := t.1,
              status := t.2.2.2.2, note := t.2.2.2.1 } }

/-- Binary exponent `⌊log₂ q⌋` of a positive rational, computed from the bit
lengths of numerator and denominator. -/
def qexp (q : ℚ) : ℤ :=
  let c : ℤ := (Nat.log2 q.num.natAbs : ℤ) - (Nat.log2 q.den : ℤ)
  if q < (2 : ℚ) ^ c then c - 1 else c

/-- The IEEE binary64 value nearest to a positive rational: the 53-bit
significand `q / 2^(qexp q - 52)` is rounded to the nearest integer with ties
to even, then scaled back. -/
def flPos (q : ℚ) : ℚ :=
  (pyRound (q / (2 : ℚ) ^ (qexp q - 52)) : ℚ) * (2 : ℚ) ^ (qexp q - 52)

/-- Rounding to the nearest IEEE binary64 double (ties to even): the exact value
CPython float arithmetic produces for each correctly rounded operation.  The
model covers the normal range; every value the score aggregation meets on
sub-scores in `[0, 100]` is 0 or has magnitude in `[0.08, 101]`, far from
overflow and subnormals. -/
def fl (q : ℚ) : ℚ :=
  if q < 0 then -flPos (-q) else if q = 0 then 0 else flPos q

/-- CPython float multiplication: correctly rounded exact product. -/
def fmul (x y : ℚ) : ℚ := fl (x * y)

/-- CPython float addition: correctly rounded exact sum. -/
def fadd (x y : ℚ) : ℚ := fl (x + y)

/-- CPython `int` → `float` conversion (exact for every score magnitude). -/
def fofInt (n : ℤ) : ℚ := fl (n : ℚ)

/-- The binary64 double the literal `0.30` denotes. -/
def w030 : ℚ := fl (30 / 100)

/-- The binary64 double the literal `0.15` denotes. -/
def w015 : ℚ := fl (15 / 100)

/-- The binary64 double the literal `0.12` denotes. -/
def w012 : ℚ := fl (12 / 100)

/-- The binary64 double the literal `0.10` denotes. -/
def w010 : ℚ := fl (10 / 100)

/-- The binary64 double the literal `0.08` denotes. -/
def w008 : ℚ := fl (8 / 100)

/-- The overall weighted score (app.py lines 449-458): the float expression
`0.30*ats + 0.15*contact + 0.15*sec + 0.12*impact + 0.10*rep + 0.10*brev +
0.08*gram` evaluated left to right in IEEE binary64 arithmetic exactly as
CPython does, then `int(round(clamp(·, 0, 100)))` — `max`/`min` compare the
exact float values and Python `round` is nearest-ties-to-even on the exact
value of the resulting double. -/
def overall_from (ats contact sec impact rep brev gram : ℤ) : ℤ :=
  pyRound (clampQ
    (fadd (fadd (fadd (fadd (fadd (fadd
      (fmul w030 (fofInt ats)) (fmul w015 (fofInt contact)))
      (fmul w015 (fofInt sec))) (fmul w012 (fofInt impact)))
      (fmul w010 (fofInt rep))) (fmul w010 (fofInt brev)))
      (fmul w008 (fofInt gram)))
    0 100)

/-- The grade thresholds (app.py lines 462-471). -/
def grade_of (overall : ℤ) : String :=
  if 90 ≤ overall then "Excellent"
  else if 80 ≤ overall then "Great"
  else if 70 ≤ overall then "Good"
  else if 60 ≤ overall then "Fair"
  else "Needs work"

/-- The case-insensitive suggestion dedup loop (app.py lines 474-481). -/
def dedupLowerS : List String → List String → List String
  | _, [] => []
  | seen, s :: rest =>
    if seen.contains s.toLower then dedupLowerS seen rest
    else s :: dedupLowerS (s.toLower :: seen) rest

/-- Embedding of `compute_dashboard` (app.py lines 284-492).  `fitzAvailable`
models the module-level `fitz is not None` flag (it only feeds the
`pymupdf_available` signal). -/
def compute_dashboard (fitzAvailable : Bool) (text : Str) (meta : CoordMeta)
    (structured : Structured) : DashboardScore :=
  let word_count := (words_of text).length
  let char_count := text.length
  let likely_scanned := likely_scanned_of text meta
  let signals : List (String × SigVal) :=
    [("pages", .i (pages_of meta)), ("word_count", .i word_count),
     ("avg_chars_per_page", .q (round1 (avg_chars_of text meta))),
     ("likely_scanned_pdf", .b likely_scanned),
     ("possible_columns", .b (possible_columns_of text)),
     ("bullet_count", .i (bullet_count_of text)),
     ("date_mentions", .i (date_mentions_of text)),
     ("char_count", .i char_count),
     ("extractor", match meta.primary with | some m => .s m.method | none => .nul),
     ("pymupdf_available", .b fitzAvailable)]
  let c1 := ats_parse_check likely_scanned
  let c2 := contact_check structured.contacts.emails structured.contacts.phones
      (!structured.contacts.linkedin.isEmpty || !structured.contacts.github.isEmpty ||
       !structured.contacts.portfolio.isEmpty)
  let c3 := sections_check structured.sections_detected
  let c4 := impact_check (nums_of text)
  let c5 := repetition_check (topFreq text)
  let c6 := brevity_check word_count
  let c7 := grammar_check (caps_of text) (weird_of text)
  let issues := c1.issues + c2.issues + c3.issues + c4.issues + c5.issues + c6.issues + c7.issues
  let overall := overall_from c1.score c2.score c3.score c4.score c5.score c6.score c7.score
  { score := overall, issues := issues, ats_parse_rate := c1.score,
    checks := [c1.item, c2.item, c3.item, c4.item, c5.item, c6.item, c7.item],
    ats_friendly := decide (70 ≤ c1.score) && decide (60 ≤ overall),
    grade := grade_of overall,
    suggestions := (dedupLowerS []
      (c1.suggs ++ c2.suggs ++ c3.suggs ++ c4.suggs ++ c5.suggs ++ c6.suggs ++ c7.suggs)).take 12,
    signals := signals }

/-- The empty `structured` dict of the `analyze` handler (app.py lines 514-526). -/
def emptyStructured : Structured :=
  { name := none,
    contacts := { emails := [], phones := [], linkedin := [], github := [], portfolio := [] },
    about := [], skills := [], experience := [], projects := [], education := [],
    certifications := [], languages := [], raw_preview := [], sections_detected := {} }

/-- The fixed degraded dashboard of the `analyze` handler (app.py lines 528-533);
its signals dict is `{"extraction_failed": True, **(meta or {})}`. -/
def degradedDashboard (meta : CoordMeta) : DashboardScore :=
  { score := 20, issues := 1, ats_parse_rate := 10, checks := [],
    ats_friendly := false, grade := "Needs work",
    suggestions := ["No text could be extracted. If this is a scanned PDF, run OCR or export as a text-based PDF."],
    signals := [("extraction_failed", .b true), ("primary", .m meta.primary),
                ("fallback", .m meta.fallback)] }

/-- Post-extraction core of the `analyze` route (app.py lines 504-533): on empty
text (Python falsiness of `text`) both the structured record and the dashboard
short-circuit to fixed degraded values; otherwise the real pipeline runs. -/
def analyzeCore (fitzAvailable : Bool) (text : Str) (meta : CoordMeta) :
    Structured × DashboardScore :=
  let structured := if text ≠ [] then extract_structured text else emptyStructured
  let dashboard :=
    if text ≠ [] then compute_dashboard fitzAvailable text meta structured
    else degradedDashboard meta
  (structured, dashboard)

/-- Dict lookup in a `signals` association list (keys here are distinct, so
first-match lookup agrees with Python dict semantics). -/
def sigLookup (signals : List (String × SigVal)) (k : String) : Option SigVal :=
  List.lookup k signals

/-- C3: the PDF extraction coordinator runs the fallback strategy exactly when
the primary strategy's text has fewer than 200 characters (visible as the
presence of fallback metadata); when both ran it returns the strictly longer
text (the primary on ties) and the metadata of the strategy whose text was not
kept sits under the `fallback` key; when only the primary ran its text and
metadata are returned with an empty fallback slot. -/
theorem extract_pdf_fallback_policy {α : Type} (strat1 strat2 : α → Str × StratMeta)
    (b : α) :
    (((extract_text_from_pdf strat1 strat2 b).2.fallback.isSome = true) ↔
        (strat1 b).1.length < 200) ∧
      ((strat1 b).1.length < 200 →
        (extract_text_from_pdf strat1 strat2 b).1 =
            (if (strat1 b).1.length < (strat2 b).1.length then (strat2 b).1
             else (strat1 b).1) ∧
          (extract_text_from_pdf strat1 strat2 b).2.fallback =
            some (if (strat1 b).1.length < (strat2 b).1.length then (strat1 b).2
                  else (strat2 b).2) ∧
          (extract_text_from_pdf strat1 strat2 b).2.primary =
            some (if (strat1 b).1.length < (strat2 b).1.length then (strat2 b).2
                  else (strat1 b).2)) ∧
      (¬ (strat1 b).1.length < 200 →
        (extract_text_from_pdf strat1 strat2 b).1 = (strat1 b).1 ∧
          (extract_text_from_pdf strat1 strat2 b).2.primary = some (strat1 b).2 ∧
          (extract_text_from_pdf strat1 strat2 b).2.fallback = none) := by
  unfold extract_text_from_pdf
  by_cases h1 : (strat1 b).1.length < 200
  · by_cases h2 : (strat1 b).1.length < (strat2 b).1.length <;> simp [h1, h2]
  · simp [h1]

/-- Sparse primary strategy stand-in for the C3 witness. -/
def stratSparse : Unit → Str × StratMeta :=
  fun _ => ([], { method := "pymupdf", pages := 0, per_page_characters := [] })

/-- Longer fallback strategy stand-in for the C3 witness. -/
def stratLong : Unit → Str × StratMeta :=
  fun _ => (strL "0123456789", { method := "pdfplumber", pages := 1, per_page_characters := [10] })

/-- Witness for C3: a sparse primary triggers the fallback; the longer fallback
text is kept and the primary metadata is retained under the `fallback` key. -/
theorem extract_pdf_fallback_policy_witness :
    (stratSparse ()).1.length < 200 ∧
      ((extract_text_from_pdf stratSparse stratLong ()).1 =
          (if (stratSparse ()).1.length < (stratLong ()).1.length then (stratLong ()).1
           else (stratSparse ()).1) ∧
        (extract_text_from_pdf stratSparse stratLong ()).2.fallback =
          some (if (stratSparse ()).1.length < (stratLong ()).1.length then (stratSparse ()).2
                else (stratLong ()).2) ∧
        (extract_text_from_pdf stratSparse stratLong ()).2.primary =
          some (if (stratSparse ()).1.length < (stratLong ()).1.length then (stratLong ()).2
                else (stratSparse ()).2)) :=
  ⟨by decide, (extract_pdf_fallback_policy stratSparse stratLong ()).2.1 (by decide)⟩

/-- C4: when no text was extracted the analyzer short-circuits to the fixed
degraded dashboard — score 20, ATS parse rate 10, grade Needs work, exactly one
suggestion (about OCR / scanned PDFs), the `extraction_failed` signal set to
true — and the seven checks are not run (the checks list is empty). -/
theorem analyze_empty_text_degraded (f : Bool) (meta : CoordMeta) (text : Str)
    (h : text = []) :
    (analyzeCore f text meta).2.score = 20 ∧
      (analyzeCore f text meta).2.ats_parse_rate = 10 ∧
      (analyzeCore f text meta).2.grade = "Needs work" ∧
      (analyzeCore f text meta).2.suggestions =
        ["No text could be extracted. If this is a scanned PDF, run OCR or export as a text-based PDF."] ∧
      sigLookup (analyzeCore f text meta).2.signals "extraction_failed" =
        some (SigVal.b true) ∧
      (analyzeCore f text meta).2.checks = [] := by
  subst h
  exact ⟨rfl, rfl, rfl, rfl, rfl, rfl⟩

theorem floor_le_pyRound (q : ℚ) : ⌊q⌋ ≤ pyRound q := by
  unfold pyRound
  split_ifs <;> omega

theorem pyRound_le_floor_add_one (q : ℚ) : pyRound q ≤ ⌊q⌋ + 1 := by
  unfold pyRound
  split_ifs <;> omega

theorem pyRound_intCast (n : ℤ) : pyRound (n : ℚ) = n := by
  unfold pyRound
  rw [Int.floor_intCast]
  norm_num

theorem pyRound_mono {a b : ℚ} (hab : a ≤ b) : pyRound a ≤ pyRound b := by
  rcases lt_or_eq_of_le (Int.floor_le_floor hab) with hf | hf
  · calc pyRound a ≤ ⌊a⌋ + 1 := pyRound_le_floor_add_one a
      _ ≤ ⌊b⌋ := by omega
      _ ≤ pyRound b := floor_le_pyRound b
  · have h1 : a - (⌊a⌋ : ℚ) ≤ b - (⌊a⌋ : ℚ) := by linarith
    unfold pyRound
    rw [← hf]
    split_ifs <;> first | omega | linarith

theorem pyRound_zero_eq : pyRound 0 = 0 := by
  have h := pyRound_intCast 0
  norm_num at h
  exact h

theorem pyRound_hundred_eq : pyRound 100 = 100 := by
  have h := pyRound_intCast 100
  norm_num at h
  exact h

/-- Clamping to `[0, 100]` commutes with rounding: the code clamps before
rounding, the spec says round then clamp; both agree. -/
theorem pyRound_clamp_comm (x : ℚ) :
    pyRound (clampQ x 0 100) = max 0 (min 100 (pyRound x)) := by
  unfold clampQ
  rcases le_total x 0 with hx0 | hx0
  · have hm : min 100 x = x := min_eq_right (by linarith)
    have hM : max 0 x = 0 := max_eq_left (by linarith)
    rw [hm, hM, pyRound_zero_eq]
    have hr : pyRound x ≤ 0 := by
      have := pyRound_mono hx0
      rwa [pyRound_zero_eq] at this
    rw [min_eq_right (by omega), max_eq_left hr]
  · rcases le_total x 100 with hx1 | hx1
    · have hm : min 100 x = x := min_eq_right hx1
      rw [hm, max_eq_right hx0]
      have hr0 : 0 ≤ pyRound x := by
        have := pyRound_mono hx0
        rwa [pyRound_zero_eq] at this
      have hr1 : pyRound x ≤ 100 := by
        have := pyRound_mono hx1
        rwa [pyRound_hundred_eq] at this
      rw [min_eq_right hr1, max_eq_right hr0]
    · have hm : min 100 x = 100 := min_eq_left hx1
      rw [hm, max_eq_right (by norm_num : (0 : ℚ) ≤ 100), pyRound_hundred_eq]
      have hr : 100 ≤ pyRound x := by
        have := pyRound_mono hx1
        rwa [pyRound_hundred_eq] at this
      rw [min_eq_left hr, max_eq_right (by omega)]

/-- Witness for C4 at the empty text and an empty coordinator metadata dict. -/
theorem analyze_empty_text_degraded_witness :
    (([] : Str) = []) ∧
      ((analyzeCore false [] { primary := none, fallback := none }).2.score = 20 ∧
        (analyzeCore false [] { primary := none, fallback := none }).2.ats_parse_rate = 10 ∧
        (analyzeCore false [] { primary := none, fallback := none }).2.grade = "Needs work" ∧
        (analyzeCore false [] { primary := none, fallback := none }).2.suggestions =
          ["No text could be extracted. If this is a scanned PDF, run OCR or export as a text-based PDF."] ∧
        sigLookup (analyzeCore false [] { primary := none, fallback := none }).2.signals
            "extraction_failed" = some (SigVal.b true) ∧
        (analyzeCore false [] { primary := none, fallback := none }).2.checks = []) :=
  ⟨rfl, analyze_empty_text_degraded false { primary := none, fallback := none } [] rfl⟩

theorem ats_item_score (b : Bool) :
    (ats_parse_check b).item.score = (ats_parse_check b).score := by
  cases b <;> rfl

theorem contact_item_score (e p : List Str) (h : Bool) :
    (contact_check e p h).item.score = (contact_check e p h).score := rfl

theorem sections_item_score (sec : SectionCounts) :
    (sections_check sec).item.score = (sections_check sec).score := rfl

theorem impact_item_score (n : Nat) :
    (impact_check n).item.score = (impact_check n).score := by
  simp only [impact_check]
  split <;> decide

theorem repetition_item_score (top : List (Str × Nat)) :
    (repetition_check top).item.score = (repetition_check top).score := rfl

theorem brevity_item_score (n : Nat) :
    (brevity_check n).item.score = (brevity_check n).score := rfl

theorem grammar_item_score (caps weird : Nat) :
    (grammar_check caps weird).item.score = (grammar_check caps weird).score := rfl

/-- C1: the dashboard has exactly seven checks, its overall score is the fixed
weighted sum 0.30/0.15/0.15/0.12/0.10/0.10/0.08 of the seven sub-scores the
checks display — evaluated in IEEE binary64 float arithmetic exactly as the
program does — rounded to the nearest integer (Python `round`, on the exact
value of the resulting double) and clamped to [0, 100]; the grade follows the
thresholds 90/80/70/60 on that score. -/
theorem dashboard_weighted_score_and_grade (f : Bool) (text : Str) (meta : CoordMeta)
    (st : Structured) :
    (compute_dashboard f text meta st).checks.length = 7 ∧
      (compute_dashboard f text meta st).score =
        max 0 (min 100 (pyRound
          (fadd (fadd (fadd (fadd (fadd (fadd
            (fmul w030 (fofInt (compute_dashboard f text meta st).checks[0]!.score))
            (fmul w015 (fofInt (compute_dashboard f text meta st).checks[1]!.score)))
            (fmul w015 (fofInt (compute_dashboard f text meta st).checks[2]!.score)))
            (fmul w012 (fofInt (compute_dashboard f text meta st).checks[3]!.score)))
            (fmul w010 (fofInt (compute_dashboard f text meta st).checks[4]!.score)))
            (fmul w010 (fofInt (compute_dashboard f text meta st).checks[5]!.score)))
            (fmul w008 (fofInt (compute_dashboard f text meta st).checks[6]!.score))))) ∧
      (compute_dashboard f text meta st).grade =
        (if 90 ≤ (compute_dashboard f text meta st).score then "Excellent"
         else if 80 ≤ (compute_dashboard f text meta st).score then "Great"
         else if 70 ≤ (compute_dashboard f text meta st).score then "Good"
         else if 60 ≤ (compute_dashboard f text meta st).score then "Fair"
         else "Needs work") := by
  refine ⟨rfl, ?_, rfl⟩
  have h0 : (compute_dashboard f text meta st).checks[0]!.score =
      (ats_parse_check (likely_scanned_of text meta)).score := ats_item_score _
  have h3 : (compute_dashboard f text meta st).checks[3]!.score =
      (impact_check (nums_of text)).score := impact_item_score _
  rw [h0, h3]
  exact pyRound_clamp_comm _

/-- Bracketing of the binary exponent: 2^e ≤ q < 2^(e+1) for positive q. -/
theorem qexp_bounds {q : ℚ} (hq : 0 < q) :
    (2 : ℚ) ^ (qexp q) ≤ q ∧ q < (2 : ℚ) ^ (qexp q + 1) := by
  have hnum : 0 < q.num := Rat.num_pos.mpr hq
  have ha0 : q.num.natAbs ≠ 0 := by omega
  have hb0 : q.den ≠ 0 := q.den_nz
  have hna : ((q.num.natAbs : ℚ)) = ((q.num : ℤ) : ℚ) := by
    rw [Int.cast_natAbs, abs_of_pos hnum]
  have hqa : q = (q.num.natAbs : ℚ) / (q.den : ℚ) := by
    rw [hna]
    exact (Rat.num_div_den q).symm
  have hbp : (0 : ℚ) < (q.den : ℚ) := by
    exact_mod_cast Nat.pos_of_ne_zero hb0
  have hA1 : (2 : ℚ) ^ ((Nat.log2 q.num.natAbs : ℤ)) ≤ (q.num.natAbs : ℚ) := by
    rw [zpow_natCast]
    exact_mod_cast Nat.log2_self_le ha0
  have hA2 : (q.num.natAbs : ℚ) < (2 : ℚ) ^ ((Nat.log2 q.num.natAbs : ℤ) + 1) := by
    rw [show (Nat.log2 q.num.natAbs : ℤ) + 1 = ((Nat.log2 q.num.natAbs + 1 : ℕ) : ℤ) by push_cast; ring]
    rw [zpow_natCast]
    exact_mod_cast Nat.lt_log2_self
  have hB1 : (2 : ℚ) ^ ((Nat.log2 q.den : ℤ)) ≤ (q.den : ℚ) := by
    rw [zpow_natCast]
    exact_mod_cast Nat.log2_self_le hb0
  have hB2 : (q.den : ℚ) < (2 : ℚ) ^ ((Nat.log2 q.den : ℤ) + 1) := by
    rw [show (Nat.log2 q.den : ℤ) + 1 = ((Nat.log2 q.den + 1 : ℕ) : ℤ) by push_cast; ring]
    rw [zpow_natCast]
    exact_mod_cast Nat.lt_log2_self
  have step1 : (2 : ℚ) ^ ((Nat.log2 q.num.natAbs : ℤ) - (Nat.log2 q.den : ℤ) - 1) * (q.den : ℚ)
      < (q.num.natAbs : ℚ) := by
    calc (2 : ℚ) ^ ((Nat.log2 q.num.natAbs : ℤ) - (Nat.log2 q.den : ℤ) - 1) * (q.den : ℚ)
        < (2 : ℚ) ^ ((Nat.log2 q.num.natAbs : ℤ) - (Nat.log2 q.den : ℤ) - 1) *
            (2 : ℚ) ^ ((Nat.log2 q.den : ℤ) + 1) := by
          exact mul_lt_mul_of_pos_left hB2 (by positivity)
      _ = (2 : ℚ) ^ ((Nat.log2 q.num.natAbs : ℤ)) := by
          rw [← zpow_add₀ (two_ne_zero)]
          ring_nf
      _ ≤ (q.num.natAbs : ℚ) := hA1
  have hlow : (2 : ℚ) ^ ((Nat.log2 q.num.natAbs : ℤ) - (Nat.log2 q.den : ℤ) - 1) < q := by
    calc (2 : ℚ) ^ ((Nat.log2 q.num.natAbs : ℤ) - (Nat.log2 q.den : ℤ) - 1)
        = (2 : ℚ) ^ ((Nat.log2 q.num.natAbs : ℤ) - (Nat.log2 q.den : ℤ) - 1) * (q.den : ℚ) /
            (q.den : ℚ) := by field_simp
      _ < (q.num.natAbs : ℚ) / (q.den : ℚ) := by gcongr
      _ = q := hqa.symm
  have step2 : (q.num.natAbs : ℚ)
      < (2 : ℚ) ^ ((Nat.log2 q.num.natAbs : ℤ) - (Nat.log2 q.den : ℤ) + 1) * (q.den : ℚ) := by
    calc ((q.num.natAbs : ℚ)) < (2 : ℚ) ^ ((Nat.log2 q.num.natAbs : ℤ) + 1) := hA2
      _ = (2 : ℚ) ^ ((Nat.log2 q.num.natAbs : ℤ) - (Nat.log2 q.den : ℤ) + 1) *
            (2 : ℚ) ^ ((Nat.log2 q.den : ℤ)) := by
          rw [← zpow_add₀ (two_ne_zero)]
          ring_nf
      _ ≤ (2 : ℚ) ^ ((Nat.log2 q.num.natAbs : ℤ) - (Nat.log2 q.den : ℤ) + 1) * (q.den : ℚ) := by
          exact mul_le_mul_of_nonneg_left hB1 (by positivity)
  have hhigh : q < (2 : ℚ) ^ ((Nat.log2 q.num.natAbs : ℤ) - (Nat.log2 q.den : ℤ) + 1) := by
    calc q = (q.num.natAbs : ℚ) / (q.den : ℚ) := hqa
      _ < (2 : ℚ) ^ ((Nat.log2 q.num.natAbs : ℤ) - (Nat.log2 q.den : ℤ) + 1) * (q.den : ℚ) /
            (q.den : ℚ) := by gcongr
      _ = (2 : ℚ) ^ ((Nat.log2 q.num.natAbs : ℤ) - (Nat.log2 q.den : ℤ) + 1) := by field_simp
  simp only [qexp]
  split_ifs with h
  · refine ⟨hlow.le, ?_⟩
    simpa using h
  · exact ⟨not_lt.mp h, hhigh⟩

theorem flPos_lower {q : ℚ} (hq : 0 < q) : (2 : ℚ) ^ (qexp q) ≤ flPos q := by
  obtain ⟨h1, _⟩ := qexp_bounds hq
  have hp : (0 : ℚ) < (2 : ℚ) ^ (qexp q - 52) := by positivity
  have hM : (2 : ℚ) ^ (52 : ℤ) ≤ q / (2 : ℚ) ^ (qexp q - 52) := by
    rw [le_div_iff₀ hp, ← zpow_add₀ (two_ne_zero), show (52 : ℤ) + (qexp q - 52) = qexp q by ring]
    exact h1
  have hfl : ((2 : ℤ) ^ (52 : ℕ)) ≤ ⌊q / (2 : ℚ) ^ (qexp q - 52)⌋ := by
    apply Int.le_floor.mpr
    push_cast
    norm_num at hM ⊢
    exact hM
  have hr : ((2 : ℤ) ^ (52 : ℕ)) ≤ pyRound (q / (2 : ℚ) ^ (qexp q - 52)) :=
    le_trans hfl (floor_le_pyRound _)
  unfold flPos
  calc (2 : ℚ) ^ qexp q
      = (2 : ℚ) ^ (52 : ℤ) * (2 : ℚ) ^ (qexp q - 52) := by
        rw [← zpow_add₀ (two_ne_zero)]
        ring_nf
    _ ≤ (pyRound (q / (2 : ℚ) ^ (qexp q - 52)) : ℚ) * (2 : ℚ) ^ (qexp q - 52) := by
        apply mul_le_mul_of_nonneg_right _ hp.le
        have hrq : (((2 : ℤ) ^ (52 : ℕ) : ℤ) : ℚ) ≤ (pyRound (q / (2 : ℚ) ^ (qexp q - 52)) : ℚ) := by
          exact_mod_cast hr
        norm_num at hrq ⊢
        exact hrq

theorem flPos_upper {q : ℚ} (hq : 0 < q) : flPos q ≤ (2 : ℚ) ^ (qexp q + 1) := by
  obtain ⟨_, h2⟩ := qexp_bounds hq
  have hp : (0 : ℚ) < (2 : ℚ) ^ (qexp q - 52) := by positivity
  have hM : q / (2 : ℚ) ^ (qexp q - 52) < (2 : ℚ) ^ (53 : ℤ) := by
    rw [div_lt_iff₀ hp, ← zpow_add₀ (two_ne_zero), show (53 : ℤ) + (qexp q - 52) = qexp q + 1 by ring]
    exact h2
  have hfl : ⌊q / (2 : ℚ) ^ (qexp q - 52)⌋ < ((2 : ℤ) ^ (53 : ℕ)) := by
    apply Int.floor_lt.mpr
    push_cast
    norm_num at hM ⊢
    exact hM
  have hr : pyRound (q / (2 : ℚ) ^ (qexp q - 52)) ≤ ((2 : ℤ) ^ (53 : ℕ)) := by
    have := pyRound_le_floor_add_one (q / (2 : ℚ) ^ (qexp q - 52))
    omega
  unfold flPos
  calc (pyRound (q / (2 : ℚ) ^ (qexp q - 52)) : ℚ) * (2 : ℚ) ^ (qexp q - 52)
      ≤ (2 : ℚ) ^ (53 : ℤ) * (2 : ℚ) ^ (qexp q - 52) := by
        apply mul_le_mul_of_nonneg_right _ hp.le
        have hrq : (pyRound (q / (2 : ℚ) ^ (qexp q - 52)) : ℚ) ≤ (((2 : ℤ) ^ (53 : ℕ) : ℤ) : ℚ) := by
          exact_mod_cast hr
        norm_num at hrq ⊢
        exact hrq
    _ = (2 : ℚ) ^ (qexp q + 1) := by
        rw [← zpow_add₀ (two_ne_zero)]
        ring_nf

theorem flPos_pos {q : ℚ} (hq : 0 < q) : 0 < flPos q :=
  lt_of_lt_of_le (by positivity) (flPos_lower hq)

theorem flPos_mono {a b : ℚ} (ha : 0 < a) (hab : a ≤ b) : flPos a ≤ flPos b := by
  have hb : 0 < b := lt_of_lt_of_le ha hab
  have hee : qexp a ≤ qexp b := by
    by_contra hcon
    push_neg at hcon
    have h1 := (qexp_bounds ha).1
    have h2 := (qexp_bounds hb).2
    have h3 : (2 : ℚ) ^ (qexp b + 1) ≤ (2 : ℚ) ^ (qexp a) :=
      zpow_le_zpow_right₀ one_le_two (by omega)
    linarith
  rcases eq_or_lt_of_le hee with heq | hlt
  · unfold flPos
    rw [← heq]
    have hp : (0 : ℚ) < (2 : ℚ) ^ (qexp a - 52) := by positivity
    apply mul_le_mul_of_nonneg_right _ hp.le
    exact_mod_cast pyRound_mono (by gcongr)
  · calc flPos a ≤ (2 : ℚ) ^ (qexp a + 1) := flPos_upper ha
      _ ≤ (2 : ℚ) ^ (qexp b) := zpow_le_zpow_right₀ one_le_two (by omega)
      _ ≤ flPos b := flPos_lower hb

/-- Rounding to the nearest double is (weakly) monotone. -/
theorem fl_mono {a b : ℚ} (hab : a ≤ b) : fl a ≤ fl b := by
  have keyp : ∀ x : ℚ, 0 < x → fl x = flPos x := by
    intro x hx
    unfold fl
    rw [if_neg (not_lt.mpr hx.le), if_neg (ne_of_gt hx)]
  have keyn : ∀ x : ℚ, x < 0 → fl x = -flPos (-x) := by
    intro x hx
    unfold fl
    rw [if_pos hx]
  have key0 : fl 0 = 0 := by
    unfold fl
    norm_num
  rcases lt_trichotomy a 0 with ha | ha | ha <;> rcases lt_trichotomy b 0 with hb | hb | hb
  · rw [keyn a ha, keyn b hb]
    have := flPos_mono (by linarith : (0 : ℚ) < -b) (by linarith : -b ≤ -a)
    linarith
  · rw [keyn a ha, hb, key0]
    have := flPos_pos (by linarith : (0 : ℚ) < -a)
    linarith
  · rw [keyn a ha, keyp b hb]
    have h1 := flPos_pos (by linarith : (0 : ℚ) < -a)
    have h2 := flPos_pos hb
    linarith
  · exact absurd (lt_of_le_of_lt (ha ▸ hab) hb) (lt_irrefl 0)
  · rw [ha, hb]
  · rw [ha, key0, keyp b hb]
    exact (flPos_pos hb).le
  · exact absurd (lt_trans (lt_of_lt_of_le ha hab) hb) (lt_irrefl 0)
  · exact absurd (hb ▸ lt_of_lt_of_le ha hab) (lt_irrefl 0)
  · rw [keyp a ha, keyp b hb]
    exact flPos_mono ha hab

theorem fl_nonneg {q : ℚ} (hq : 0 ≤ q) : 0 ≤ fl q := by
  have h0 : fl 0 = 0 := by
    unfold fl
    norm_num
  calc (0 : ℚ) = fl 0 := h0.symm
    _ ≤ fl q := fl_mono hq

theorem fmul_right_mono {w x y : ℚ} (hw : 0 ≤ w) (hxy : x ≤ y) : fmul w x ≤ fmul w y :=
  fl_mono (mul_le_mul_of_nonneg_left hxy hw)

theorem fadd_mono {x y u v : ℚ} (hx : x ≤ y) (hu : u ≤ v) : fadd x u ≤ fadd y v :=
  fl_mono (add_le_add hx hu)

theorem fofInt_mono {m n : ℤ} (h : m ≤ n) : fofInt m ≤ fofInt n :=
  fl_mono (by exact_mod_cast h)

theorem overall_from_mono_all (a b c d e f g aa bb cc dd ee ff gg : ℤ)
    (ha : a ≤ aa) (hb : b ≤ bb) (hc : c ≤ cc) (hd : d ≤ dd) (he : e ≤ ee)
    (hf : f ≤ ff) (hg : g ≤ gg) :
    overall_from a b c d e f g ≤ overall_from aa bb cc dd ee ff gg := by
  have hw030 : (0 : ℚ) ≤ w030 := fl_nonneg (by norm_num)
  have hw015 : (0 : ℚ) ≤ w015 := fl_nonneg (by norm_num)
  have hw012 : (0 : ℚ) ≤ w012 := fl_nonneg (by norm_num)
  have hw010 : (0 : ℚ) ≤ w010 := fl_nonneg (by norm_num)
  have hw008 : (0 : ℚ) ≤ w008 := fl_nonneg (by norm_num)
  unfold overall_from
  apply pyRound_mono
  unfold clampQ
  refine max_le_max le_rfl (min_le_min le_rfl ?_)
  exact fadd_mono (fadd_mono (fadd_mono (fadd_mono (fadd_mono (fadd_mono
    (fmul_right_mono hw030 (fofInt_mono ha)) (fmul_right_mono hw015 (fofInt_mono hb)))
    (fmul_right_mono hw015 (fofInt_mono hc))) (fmul_right_mono hw012 (fofInt_mono hd)))
    (fmul_right_mono hw010 (fofInt_mono he))) (fmul_right_mono hw010 (fofInt_mono hf)))
    (fmul_right_mono hw008 (fofInt_mono hg))

/-- The sub-score domain of the data model: every check score the engine
produces is an integer in [0, 100]. -/
def subScore (n : ℤ) : Prop := 0 ≤ n ∧ n ≤ 100

/-- C8: the overall dashboard aggregation — the program's IEEE binary64
weighted sum, clamp and Python round — is monotonically non-decreasing in each
of the seven check sub-scores separately: on sub-scores in the data model's
range [0, 100] (where the float model is exact), raising one sub-score while
the other six are held fixed never lowers the overall score. -/
theorem overall_from_monotone_each :
    (∀ a aa b c d e f g : ℤ, subScore a → subScore aa → subScore b → subScore c →
      subScore d → subScore e → subScore f → subScore g → a ≤ aa →
      overall_from a b c d e f g ≤ overall_from aa b c d e f g) ∧
    (∀ a b bb c d e f g : ℤ, subScore a → subScore b → subScore bb → subScore c →
      subScore d → subScore e → subScore f → subScore g → b ≤ bb →
      overall_from a b c d e f g ≤ overall_from a bb c d e f g) ∧
    (∀ a b c cc d e f g : ℤ, subScore a → subScore b → subScore c → subScore cc →
      subScore d → subScore e → subScore f → subScore g → c ≤ cc →
      overall_from a b c d e f g ≤ overall_from a b cc d e f g) ∧
    (∀ a b c d dd e f g : ℤ, subScore a → subScore b → subScore c → subScore d →
      subScore dd → subScore e → subScore f → subScore g → d ≤ dd →
      overall_from a b c d e f g ≤ overall_from a b c dd e f g) ∧
    (∀ a b c d e ee f g : ℤ, subScore a → subScore b → subScore c → subScore d →
      subScore e → subScore ee → subScore f → subScore g → e ≤ ee →
      overall_from a b c d e f g ≤ overall_from a b c d ee f g) ∧
    (∀ a b c d e f ff g : ℤ, subScore a → subScore b → subScore c → subScore d →
      subScore e → subScore f → subScore ff → subScore g → f ≤ ff →
      overall_from a b c d e f g ≤ overall_from a b c d e ff g) ∧
    (∀ a b c d e f g gg : ℤ, subScore a → subScore b → subScore c → subScore d →
      subScore e → subScore f → subScore g → subScore gg → g ≤ gg →
      overall_from a b c d e f g ≤ overall_from a b c d e f gg) := by
  refine ⟨?_, ?_, ?_, ?_, ?_, ?_, ?_⟩ <;> intro a x y c d e f g _ _ _ _ _ _ _ _ h
  · exact overall_from_mono_all _ _ _ _ _ _ _ _ _ _ _ _ _ _ h le_rfl le_rfl le_rfl le_rfl le_rfl le_rfl
  · exact overall_from_mono_all _ _ _ _ _ _ _ _ _ _ _ _ _ _ le_rfl h le_rfl le_rfl le_rfl le_rfl le_rfl
  · exact overall_from_mono_all _ _ _ _ _ _ _ _ _ _ _ _ _ _ le_rfl le_rfl h le_rfl le_rfl le_rfl le_rfl
  · exact overall_from_mono_all _ _ _ _ _ _ _ _ _ _ _ _ _ _ le_rfl le_rfl le_rfl h le_rfl le_rfl le_rfl
  · exact overall_from_mono_all _ _ _ _ _ _ _ _ _ _ _ _ _ _ le_rfl le_rfl le_rfl le_rfl h le_rfl le_rfl
  · exact overall_from_mono_all _ _ _ _ _ _ _ _ _ _ _ _ _ _ le_rfl le_rfl le_rfl le_rfl le_rfl h le_rfl
  · exact overall_from_mono_all _ _ _ _ _ _ _ _ _ _ _ _ _ _ le_rfl le_rfl le_rfl le_rfl le_rfl le_rfl h

/-- Witness for C8: raising the first sub-score from 0 to 100 with the others
fixed at 50 does not lower the overall score. -/
theorem overall_from_monotone_each_witness :
    subScore 0 ∧ subScore 100 ∧ subScore 50 ∧ (0 : ℤ) ≤ 100 ∧
      overall_from 0 50 50 50 50 50 50 ≤ overall_from 100 50 50 50 50 50 50 :=
  ⟨⟨by decide, by decide⟩, ⟨by decide, by decide⟩, ⟨by decide, by decide⟩, by decide,
   overall_from_monotone_each.1 0 100 50 50 50 50 50 50 ⟨by decide, by decide⟩
     ⟨by decide, by decide⟩ ⟨by decide, by decide⟩ ⟨by decide, by decide⟩
     ⟨by decide, by decide⟩ ⟨by decide, by decide⟩ ⟨by decide, by decide⟩
     ⟨by decide, by decide⟩ (by decide)⟩

theorem cleanTokens_mem : ∀ (l : List Str) (s : Str), s ∈ cleanTokens l → s.length ≤ 45 := by
  intro l
  induction l with
  | nil => intro s h; simp [cleanTokens] at h
  | cons p rest ih =>
    intro s h
    rw [cleanTokens] at h
    split at h
    · exact ih s h
    · split at h
      · exact ih s h
      · next h45 =>
          rcases List.mem_cons.mp h with rfl | hm
          · omega
          · exact ih s hm

theorem dedupLower_sublist : ∀ (l seen : List Str), (dedupLower seen l).Sublist l := by
  intro l
  induction l with
  | nil => intro seen; simp [dedupLower]
  | cons s rest ih =>
    intro seen
    rw [dedupLower]
    split
    · exact .cons s (ih seen)
    · exact .cons₂ s (ih _)

theorem dedupLower_not_seen :
    ∀ (l seen : List Str) (x : Str), x ∈ dedupLower seen l → ¬ lowerStr x ∈ seen := by
  intro l
  induction l with
  | nil => intro seen x hx; simp [dedupLower] at hx
  | cons s rest ih =>
    intro seen x hx
    rw [dedupLower] at hx
    split at hx
    · exact ih seen x hx
    · next hns =>
        rcases List.mem_cons.mp hx with rfl | hm
        · intro hmem
          exact hns (List.elem_eq_true_of_mem hmem)
        · intro hmem
          exact ih _ x hm (List.mem_cons_of_mem _ hmem)

theorem dedupLower_nodup : ∀ (l seen : List Str), ((dedupLower seen l).map lowerStr).Nodup := by
  intro l
  induction l with
  | nil => intro seen; simp [dedupLower]
  | cons s rest ih =>
    intro seen
    rw [dedupLower]
    split
    · exact ih seen
    · refine List.Nodup.cons ?_ (ih (lowerStr s :: seen))
      intro hmem
      rcases List.mem_map.mp hmem with ⟨x, hx, hxe⟩
      exact dedupLower_not_seen rest _ x hx (by rw [hxe]; exact List.mem_cons_self _ _)

/-- C2: for every input, the normalized skills list has at most 70 entries, each
entry is at most 45 characters, no two entries agree after lowercasing, and the
list is a subsequence of the cleaned token stream (first-seen order preserved). -/
theorem split_skills_invariants (skills_lines : List Str) :
    (split_skills skills_lines).length ≤ 70 ∧
      (∀ s ∈ split_skills skills_lines, s.length ≤ 45) ∧
      ((split_skills skills_lines).map lowerStr).Nodup ∧
      (split_skills skills_lines).Sublist (skillTokens skills_lines) := by
  refine ⟨?_, ?_, ?_, ?_⟩
  · exact List.length_take_le 70 _
  · intro s hs
    have h1 : s ∈ dedupLower [] (skillTokens skills_lines) := List.mem_of_mem_take hs
    have h2 : s ∈ skillTokens skills_lines := (dedupLower_sublist _ _).subset h1
    exact cleanTokens_mem _ s h2
  · show (((dedupLower [] (skillTokens skills_lines)).take 70).map lowerStr).Nodup
    rw [List.map_take]
    exact List.Nodup.sublist (List.take_sublist 70 _) (dedupLower_nodup _ [])
  · exact (List.take_sublist _ _).trans (dedupLower_sublist _ _)

/-- Witness for C2 at a concrete skills section. -/
theorem split_skills_invariants_witness :
    (split_skills [strL "Frontend: React, Vue | CSS; Python / Go"]).length ≤ 70 ∧
      ∀ s ∈ split_skills [strL "Frontend: React, Vue | CSS; Python / Go"], s.length ≤ 45 :=
  ⟨(split_skills_invariants [strL "Frontend: React, Vue | CSS; Python / Go"]).1,
   (split_skills_invariants [strL "Frontend: React, Vue | CSS; Python / Go"]).2.1⟩

theorem lexLe_total_thm : ∀ a b : Str, lexLe a b = true ∨ lexLe b a = true := by
  intro a
  induction a with
  | nil => intro b; left; simp [lexLe]
  | cons x xs ih =>
    intro b
    cases b with
    | nil => right; simp [lexLe]
    | cons y ys =>
      rcases lt_trichotomy x y with h | h | h
      · left; simp [lexLe, h]
      · subst h
        rcases ih ys with hl | hl
        · left; simpa [lexLe, lt_irrefl] using hl
        · right; simpa [lexLe, lt_irrefl] using hl
      · right; simp [lexLe, h]

theorem lexLe_trans_thm :
    ∀ a b c : Str, lexLe a b = true → lexLe b c = true → lexLe a c = true := by
  intro a
  induction a with
  | nil => intro b c _ _; simp [lexLe]
  | cons x xs ih =>
    intro b c hab hbc
    cases b with
    | nil => simp [lexLe] at hab
    | cons y ys =>
      cases c with
      | nil => simp [lexLe] at hbc
      | cons z zs =>
        rcases lt_trichotomy x y with h1 | h1 | h1
        · rcases lt_trichotomy y z with h2 | h2 | h2
          · simp [lexLe, lt_trans h1 h2]
          · subst h2; simp [lexLe, h1]
          · rw [lexLe] at hbc
            simp [not_lt_of_gt h2, h2] at hbc
        · subst h1
          rw [lexLe] at hab
          simp [lt_irrefl] at hab
          rcases lt_trichotomy x z with h2 | h2 | h2
          · simp [lexLe, h2]
          · subst h2
            rw [lexLe] at hbc ⊢
            simp [lt_irrefl] at hbc ⊢
            exact ih ys zs hab hbc
          · rw [lexLe] at hbc
            simp [not_lt_of_gt h2, h2] at hbc
        · rw [lexLe] at hab
          simp [not_lt_of_gt h1, h1] at hab

instance : IsTotal Str (fun a b => lexLe a b = true) := ⟨lexLe_total_thm⟩

instance : IsTrans Str (fun a b => lexLe a b = true) := ⟨lexLe_trans_thm⟩

theorem dedupFirst_subset : ∀ (l seen : List Str) (x : Str), x ∈ dedupFirst seen l → x ∈ l := by
  intro l
  induction l with
  | nil => intro seen x hx; simp [dedupFirst] at hx
  | cons s rest ih =>
    intro seen x hx
    rw [dedupFirst] at hx
    split at hx
    · exact List.mem_cons_of_mem _ (ih seen x hx)
    · rcases List.mem_cons.mp hx with rfl | hm
      · exact List.mem_cons_self _ _
      · exact List.mem_cons_of_mem _ (ih _ x hm)

theorem pySortedSet_subset {xs : List Str} {x : Str} (h : x ∈ pySortedSet xs) : x ∈ xs := by
  unfold pySortedSet at h
  exact dedupFirst_subset _ [] x ((List.perm_insertionSort _ _).mem_iff.mp h)

theorem pySortedSet_pairwise (xs : List Str) :
    (pySortedSet xs).Pairwise (fun a b => lexLe a b = true) :=
  List.sorted_insertionSort _ _

/-- C9: every extracted phone keeps at least 9 digits and at most 3 phones are
kept; every portfolio entry avoids LinkedIn/GitHub substrings (on the lowercased
URL), contains no `@`, is at least 10 characters, and the portfolio list has at
most 2 entries in sorted order. -/
theorem find_contacts_invariants (text : Str) :
    (∀ p ∈ (find_contacts text).phones, 9 ≤ (digitsOf p).length) ∧
      (find_contacts text).phones.length ≤ 3 ∧
      (∀ u ∈ (find_contacts text).portfolio,
        hasSub (strL "linkedin.com") (lowerStr u) = false ∧
          hasSub (strL "github.com") (lowerStr u) = false ∧
          u.contains '@' = false ∧ 10 ≤ u.length) ∧
      (find_contacts text).portfolio.length ≤ 2 ∧
      (find_contacts text).portfolio.Pairwise (fun a b => lexLe a b = true) := by
  refine ⟨?_, ?_, ?_, ?_, ?_⟩
  · intro p hp
    have h1 := List.mem_of_mem_take (n := 3) hp
    have h2 := List.of_mem_filter h1
    exact of_decide_eq_true h2
  · exact List.length_take_le 3 _
  · intro u hu
    have h1 := List.mem_of_mem_take (n := 2) hu
    have h2 := pySortedSet_subset h1
    have h3 := List.of_mem_filter h2
    simp only [Bool.and_eq_true, Bool.not_eq_true'] at h3
    refine ⟨h3.1.1.1, h3.1.1.2, h3.1.2, ?_⟩
    have h10 := of_decide_eq_false h3.2
    omega
  · exact List.length_take_le 2 _
  · exact (pySortedSet_pairwise _).sublist (List.take_sublist 2 _)

/-- Witness for C9 at a concrete contact block. -/
theorem find_contacts_invariants_witness :
    (∀ p ∈ (find_contacts (strL "a@b.co +1 415 555 0100")).phones,
        9 ≤ (digitsOf p).length) ∧
      (find_contacts (strL "a@b.co +1 415 555 0100")).phones.length ≤ 3 :=
  ⟨(find_contacts_invariants (strL "a@b.co +1 415 555 0100")).1,
   (find_contacts_invariants (strL "a@b.co +1 415 555 0100")).2.1⟩

/-- The eight keys present in `sectionize`'s dict from initialisation. -/
def isBucketKey (k : String) : Bool :=
  k == "summary" || k == "skills" || k == "experience" || k == "education" ||
  k == "projects" || k == "certifications" || k == "languages" || k == "_unknown"

theorem get_empty (k : String) : Sections.get {} k = [] := by
  unfold Sections.get
  split_ifs <;> rfl

set_option maxHeartbeats 1600000 in
theorem get_push_self (s : Sections) (k : String) (l : Str) (hk : isBucketKey k = true) :
    (s.push k l).get k = s.get k ++ [l] := by
  simp only [isBucketKey, Bool.or_eq_true, beq_iff_eq] at hk
  rcases hk with ((((((rfl | rfl) | rfl) | rfl) | rfl) | rfl) | rfl) | rfl <;>
    simp [Sections.push, Sections.get]

set_option maxHeartbeats 2000000 in
theorem get_push_cases (s : Sections) (k k' : String) (line : Str) :
    (s.push k line).get k' = s.get k' ∨ (s.push k line).get k' = s.get k' ++ [line] := by
  unfold Sections.push
  split_ifs <;> unfold Sections.get <;> split_ifs <;> simp

theorem get_push_mem {s : Sections} {k k' : String} {line l' : Str}
    (h : l' ∈ (s.push k line).get k') : l' ∈ s.get k' ∨ l' = line := by
  rcases get_push_cases s k k' line with he | he <;> rw [he] at h
  · exact Or.inl h
  · rcases List.mem_append.mp h with hm | hm
    · exact Or.inl hm
    · exact Or.inr (List.mem_singleton.mp hm)

theorem sectionizeGo_mem (ls : List Str) :
    ∀ (cur : String) (acc : Sections) (k : String) (l : Str),
      (∀ k' l', l' ∈ acc.get k' → heading_key l' = none) →
      l ∈ (sectionizeGo ls cur acc).get k → heading_key l = none := by
  induction ls with
  | nil => intro cur acc k l hinv hl; exact hinv k l hl
  | cons line rest ih =>
    intro cur acc k l hinv hl
    cases hhead : heading_key line with
    | some key =>
      rw [sectionizeGo, hhead] at hl
      exact ih key acc k l hinv hl
    | none =>
      rw [sectionizeGo, hhead] at hl
      refine ih cur _ k l ?_ hl
      intro k' l' hl'
      rcases get_push_mem hl' with hm | rfl
      · exact hinv k' l' hm
      · exact hhead

theorem sectionizeGo_app (ls : List Str) :
    ∀ (cur : String) (acc : Sections),
      isBucketKey cur = true → (∀ l ∈ ls, heading_key l = none) →
      (sectionizeGo ls cur acc).get cur = acc.get cur ++ ls := by
  induction ls with
  | nil => intro cur acc _ _; simp [sectionizeGo]
  | cons line rest ih =>
    intro cur acc hk hall
    have hline : heading_key line = none := hall line (List.mem_cons_self _ _)
    rw [sectionizeGo, hline]
    rw [ih cur _ hk (fun l hl => hall l (List.mem_cons_of_mem _ hl))]
    rw [get_push_self _ _ _ hk]
    simp

theorem lookup_mem_values :
    ∀ (ps : List (Str × String)) (l : Str) (k : String),
      List.lookup l ps = some k → k ∈ ps.map Prod.snd := by
  intro ps
  induction ps with
  | nil => intro l k h; simp [List.lookup] at h
  | cons p rest ih =>
    intro l k h
    rw [List.lookup] at h
    split at h
    · simp at h
      simp [h]
    · exact List.mem_cons_of_mem _ (ih l k h)

theorem heading_key_bucket {line : Str} {k : String}
    (h : heading_key line = some k) : isBucketKey k = true := by
  simp only [heading_key] at h
  split at h
  · exact absurd h (by simp)
  · have hm := lookup_mem_values _ _ _ h
    have hall : ∀ x ∈ (SECTION_ALIASES.flatMap fun kv =>
        kv.2.map fun a => (lowerStr (strL a), kv.1)).map Prod.snd, isBucketKey x = true := by
      decide
    exact hall k hm

/-- C7: sectionizing is idempotent on its own output — prepending one of a
section's heading aliases to any (possibly line-capped) block the first pass
assigned to that canonical section re-assigns exactly the same lines to the same
section. -/
theorem sectionize_reassign (lines : List Str) (k : String) (a : Str) (n : Nat)
    (ha : heading_key a = some k)
    (hne : (sectionize lines).get k ≠ []) :
    (sectionize (a :: ((sectionize lines).get k).take n)).get k =
      ((sectionize lines).get k).take n := by
  have hbk : isBucketKey k = true := heading_key_bucket ha
  have hmem : ∀ l ∈ ((sectionize lines).get k).take n, heading_key l = none := by
    intro l hl
    have h2 : l ∈ (sectionize lines).get k := List.mem_of_mem_take hl
    refine sectionizeGo_mem lines "_unknown" {} k l ?_ h2
    intro k' l' hl'
    rw [get_empty] at hl'
    simp at hl'
  show (sectionizeGo (a :: ((sectionize lines).get k).take n) "_unknown" {}).get k = _
  rw [sectionizeGo, ha]
  rw [sectionizeGo_app _ k {} hbk hmem, get_empty]
  simp

/-- Witness for C7: an education block re-sectionizes to education under its own
alias. -/
theorem sectionize_reassign_witness :
    heading_key (strL "education") = some "education" ∧
      (sectionize [strL "Education", strL "BSc Physics"]).get "education" ≠ [] ∧
      (sectionize (strL "education" ::
          ((sectionize [strL "Education", strL "BSc Physics"]).get "education").take 90)).get
          "education" =
        ((sectionize [strL "Education", strL "BSc Physics"]).get "education").take 90 :=
  ⟨by decide, by decide,
   sectionize_reassign [strL "Education", strL "BSc Physics"] "education" (strL "education") 90
     (by decide) (by decide)⟩

theorem gnGo_from_clean (ls : List Str) :
    ∀ r, gnGo ls = some r →
      ∃ l, l ∈ ls ∧ r = normalize l ∧
        (gnBlacklist.any fun b => hasSub b (gnLow l)) = false := by
  induction ls with
  | nil => intro r h; simp [gnGo] at h
  | cons l rest ih =>
    intro r h
    rw [gnGo] at h
    split at h
    · rcases ih r h with ⟨l', hl', he, hb⟩
      exact ⟨l', List.mem_cons_of_mem _ hl', he, hb⟩
    · next hbl =>
        split at h
        · rcases ih r h with ⟨l', hl', he, hb⟩
          exact ⟨l', List.mem_cons_of_mem _ hl', he, hb⟩
        · split at h
          · rcases ih r h with ⟨l', hl', he, hb⟩
            exact ⟨l', List.mem_cons_of_mem _ hl', he, hb⟩
          · split at h
            · rcases ih r h with ⟨l', hl', he, hb⟩
              exact ⟨l', List.mem_cons_of_mem _ hl', he, hb⟩
            · split at h
              · refine ⟨l, List.mem_cons_self _ _, ?_, ?_⟩
                · exact (Option.some.injEq _ _ ▸ h).symm
                · simpa using hbl
              · rcases ih r h with ⟨l', hl', he, hb⟩
                exact ⟨l', List.mem_cons_of_mem _ hl', he, hb⟩

/-- C10: a returned name always comes from one of the first 16 lines, from a
line whose lowercased stripped form contains none of the blacklist substrings —
in particular no line containing `cv` anywhere (even inside a word) is ever
returned, and no line beyond the 16th is. -/
theorem guess_name_from_clean (lines : List Str) (r : Str)
    (h : guess_name lines = some r) :
    ∃ l, l ∈ lines.take 16 ∧ r = normalize l ∧
      (gnBlacklist.any fun b => hasSub b (gnLow l)) = false ∧
      hasSub (strL "cv") (gnLow l) = false := by
  rcases gnGo_from_clean _ r h with ⟨l, hl, he, hb⟩
  refine ⟨l, hl, he, hb, ?_⟩
  have hcv : strL "cv" ∈ gnBlacklist := by decide
  simpa using List.any_eq_false.mp hb _ hcv

/-- Witness for C10 at a clean two-word name line. -/
theorem guess_name_from_clean_witness :
    guess_name [strL "John Doe"] = some (strL "John Doe") ∧
      ∃ l, l ∈ ([strL "John Doe"]).take 16 ∧ strL "John Doe" = normalize l ∧
        (gnBlacklist.any fun b => hasSub b (gnLow l)) = false ∧
        hasSub (strL "cv") (gnLow l) = false :=
  ⟨by decide, guess_name_from_clean [strL "John Doe"] (strL "John Doe") (by decide)⟩

theorem ats_issues (b : Bool) : (ats_parse_check b).issues = if b then 1 else 0 := by
  cases b <;> rfl

theorem contact_issues (e p : List Str) (h : Bool) :
    (contact_check e p h).issues =
      (if e.isEmpty then 1 else 0) + (if p.isEmpty then 1 else 0) := by
  rcases e with _ | ⟨x, e⟩ <;> rcases p with _ | ⟨y, p⟩ <;> cases h <;> rfl

theorem sections_issues (sec : SectionCounts) :
    (sections_check sec).issues =
      (if 0 < sec.skills then 0 else 1) + (if 0 < sec.education then 0 else 1) +
        (if 0 < sec.experience ∨ 0 < sec.projects then 0 else 1) := by
  rcases Nat.eq_zero_or_pos sec.skills with h1 | h1 <;>
    rcases Nat.eq_zero_or_pos sec.education with h2 | h2 <;>
      rcases Nat.eq_zero_or_pos sec.experience with h3 | h3 <;>
        rcases Nat.eq_zero_or_pos sec.projects with h4 | h4 <;>
          simp [sections_check, h1, h2, h3, h4]

theorem impact_issues (n : Nat) : (impact_check n).issues = if n < 6 then 1 else 0 := by
  unfold impact_check
  split_ifs <;> rfl

theorem repetition_issues (top : List (Str × Nat)) :
    (repetition_check top).issues =
      (match top.head? with
       | some t0 => if 18 ≤ t0.2 then (1 : ℤ) else 0
       | none => 0) := by
  rcases top with _ | ⟨t0, rest⟩
  · rfl
  · by_cases h : 18 ≤ t0.2 <;> simp [repetition_check, h]

theorem brevity_issues (n : Nat) :
    (brevity_check n).issues = if n < 220 then 1 else if 1200 < n then 1 else 0 := by
  unfold brevity_check
  split_ifs <;> rfl

theorem grammar_issues (c w : Nat) :
    (grammar_check c w).issues = if 25 < c ∨ 80 < w then 1 else 0 := by
  unfold grammar_check
  split_ifs <;> rfl

/-- C6 (amended): `issues` counts one per triggered penalty condition, not one
per check — the contact check adds one for a missing email and one for a missing
phone (the missing-link penalty adds none), and the sections check adds one per
missing section group, so a single check can add up to three. -/
theorem issues_decomposition (f : Bool) (text : Str) (meta : CoordMeta)
    (st : Structured) :
    (compute_dashboard f text meta st).issues =
      (if likely_scanned_of text meta then 1 else 0) +
        ((if st.contacts.emails.isEmpty then 1 else 0) +
          (if st.contacts.phones.isEmpty then 1 else 0)) +
        ((if 0 < st.sections_detected.skills then 0 else 1) +
          (if 0 < st.sections_detected.education then 0 else 1) +
          (if 0 < st.sections_detected.experience ∨ 0 < st.sections_detected.projects then 0
           else 1)) +
        (if nums_of text < 6 then 1 else 0) +
        (match (topFreq text).head? with
         | some t0 => if 18 ≤ t0.2 then (1 : ℤ) else 0
         | none => 0) +
        (if (words_of text).length < 220 then 1
         else if 1200 < (words_of text).length then 1 else 0) +
        (if 25 < caps_of text ∨ 80 < weird_of text then 1 else 0) := by
  show (ats_parse_check (likely_scanned_of text meta)).issues +
      (contact_check st.contacts.emails st.contacts.phones
        (!st.contacts.linkedin.isEmpty || !st.contacts.github.isEmpty ||
          !st.contacts.portfolio.isEmpty)).issues +
      (sections_check st.sections_detected).issues +
      (impact_check (nums_of text)).issues +
      (repetition_check (topFreq text)).issues +
      (brevity_check (words_of text).length).issues +
      (grammar_check (caps_of text) (weird_of text)).issues = _
  rw [ats_issues, contact_issues, sections_issues, impact_issues, repetition_issues,
    brevity_issues, grammar_issues]

/-- C6 (counterexample): on an empty document every contact element and section
group is missing, so `issues` reaches 8 while there are only 7 checks —
contradicting "at most one issue per check". -/
theorem issues_exceed_one_per_check :
    (compute_dashboard false [] { primary := none, fallback := none } emptyStructured).issues = 8 ∧
      (compute_dashboard false [] { primary := none, fallback := none }
          emptyStructured).checks.length = 7 := by
  exact ⟨by decide, rfl⟩

/-- The scenario text of the spec: an email, a phone, and no explicit links. -/
def scenarioText : Str := strL "John Doe\njohn.doe@example.com\n+1 415 555 0100"

/-- The dashboard computed on the scenario text. -/
def scenarioDash : DashboardScore :=
  compute_dashboard false scenarioText { primary := none, fallback := none }
    (extract_structured scenarioText)

/-- C5 (counterexample): the scenario text contains the email and the phone and
no written-out links, yet the contact check does not score 90/warn — the email's
own domain is picked up as a portfolio link, so the link penalty never fires. -/
theorem contact_scenario_counterexample :
    hasSub (strL "john.doe@example.com") scenarioText = true ∧
      hasSub (strL "+1 415 555 0100") scenarioText = true ∧
      hasSub (strL "linkedin") (lowerStr scenarioText) = false ∧
      hasSub (strL "github") (lowerStr scenarioText) = false ∧
      hasSub (strL "http") (lowerStr scenarioText) = false ∧
      hasSub (strL "www.") (lowerStr scenarioText) = false ∧
      ¬ ((scenarioDash.checks[1]!).score = 90 ∧ (scenarioDash.checks[1]!).status = "warn") := by
  refine ⟨by decide, by decide, by decide, by decide, by decide, by decide, ?_⟩
  intro hc
  exact absurd hc.1 (by decide)

/-- C5 (amended): on the scenario text the emails and phones come out as the
claim says, but `PORTFOLIO_RE` extracts `example.com` from the email's domain,
so `has_link` is true, the −10 link penalty does not apply, and the contact
check scores 100 with status `pass`. -/
theorem contact_scenario_amended :
    (find_contacts scenarioText).emails = [strL "john.doe@example.com"] ∧
      (find_contacts scenarioText).phones = [strL "+1 415 555 0100"] ∧
      (find_contacts scenarioText).portfolio = [strL "example.com"] ∧
      (scenarioDash.checks[1]!).score = 100 ∧
      (scenarioDash.checks[1]!).status = "pass" := by
  exact ⟨by decide, by decide, by decide, by decide, by decide⟩

end App
